import Mathlib

/-!
Verification of the multi-view acquisition and reconstruction pipeline driver
(`tools/process_smc.py`) against its natural-language specification.

The development shallowly embeds the driver's control flow as a pure function
producing a trace of observable events, embeds the artifact-naming logic as
pure string functions, and models the external collaborators that the driver
delegates to (calibration normalizer, estimator, triangulator) from the
specification where their code is not part of the source extract.
-/

open Matrix

/-! ## Camera parameters and the calibration normalizer (spec §3, §4.1) -/

/-- Per-camera calibration: intrinsic matrix, extrinsic rotation/translation and
the convention flag (`world2cam = true` means the extrinsic maps world
coordinates into camera coordinates).  Mirrors `CameraParameter` of §3. -/
structure CameraParameter where
  intrinsic : Matrix (Fin 3) (Fin 3) ℚ
  extrinsic_r : Matrix (Fin 3) (Fin 3) ℚ
  extrinsic_t : Fin 3 → ℚ
  world2cam : Bool

/-- Matrix inverse via the adjugate, the exact inverse for invertible matrices. -/
def minv (A : Matrix (Fin 3) (Fin 3) ℚ) : Matrix (Fin 3) (Fin 3) ℚ :=
  A.det⁻¹ • A.adjugate

/-- Extrinsic inversion: replaces (R, T) by (R⁻¹, -R⁻¹T) and flips the
convention flag.  Models `PinholeCameraParameter.inverse_extrinsic`, the
operation invoked at `process_smc.py:178`. -/
def CameraParameter.inverse_extrinsic (c : CameraParameter) : CameraParameter :=
  { c with
    extrinsic_r := minv c.extrinsic_r
    extrinsic_t := -((minv c.extrinsic_r).mulVec c.extrinsic_t)
    world2cam := !c.world2cam }

/-- Modelled from the spec: `get_all_color_kinect_parameter_from_smc`
(`xrmocap.io.camera`, called at `process_smc.py:54`) is not part of the source
extract.  Per §4.1 the Calibration Normalizer produces one CameraParameter per
camera with the extrinsic oriented camera-to-world, i.e. every raw parameter
flagged world-to-camera is inverted. -/
def get_all_color_kinect_parameter_from_smc (raw : List CameraParameter) :
    List CameraParameter :=
  raw.map fun c => if c.world2cam then c.inverse_extrinsic else c

/-- The only later pipeline stage that inspects the convention flag
(`process_smc.py:177-178`): the visualization stage inverts the extrinsic
again if and only if it still reads world-to-camera. -/
def visualizationCam (c : CameraParameter) : CameraParameter :=
  if c.world2cam then c.inverse_extrinsic else c

theorem minv_mul_self {A : Matrix (Fin 3) (Fin 3) ℚ} (h : A.det ≠ 0) :
    minv A * A = 1 := by
  rw [minv, smul_mul_assoc, Matrix.adjugate_mul, smul_smul, inv_mul_cancel₀ h, one_smul]

theorem mul_minv_self {A : Matrix (Fin 3) (Fin 3) ℚ} (h : A.det ≠ 0) :
    A * minv A = 1 := by
  rw [minv, mul_smul_comm, Matrix.mul_adjugate, smul_smul, inv_mul_cancel₀ h, one_smul]

/-! ## Artifact naming (Result Writer, `process_smc.py:35-36, 99-117`) -/

/-- Suffix of a string after the final slash; models
`args.smc_path.rsplit('/', 1)[-1]` at `process_smc.py:35`. -/
def afterLastSlash (s : String) : String :=
  ⟨((s.data.reverse.takeWhile fun c => c != '/')).reverse⟩

/-- Prefix of a string before the final dot (the whole string when it has no
dot); models `file_name.rsplit('.', 1)[0]` at `process_smc.py:36`. -/
def beforeLastDot (s : String) : String :=
  if s.data.contains '.' then
    ⟨(((s.data.reverse.dropWhile fun c => c != '.')).drop 1).reverse⟩
  else s

/-- Capture identifier derived from the input path (`process_smc.py:35-36`). -/
def smcNameOf (path : String) : String :=
  beforeLastDot (afterLastSlash path)

/-- Python's `f'{index:02d}'`: decimal digits zero-padded to width two. -/
def pad2 (n : Nat) : String :=
  if n < 10 then "0" ++ toString n else toString n

/-- Per-view 2D keypoints artifact name (`process_smc.py:100-102`). -/
def kps2dFileName (smcName : String) (index : Nat) : String :=
  (smcName ++ "_keypoints2d_") ++ ("view" ++ pad2 index ++ ".npz")

/-- Fused 3D keypoints artifact name (`process_smc.py:108-109`). -/
def keypoints3dFileName (smcName : String) : String :=
  smcName ++ "_keypoints3d.npz"

/-- Body-model variant tag (`process_smc.py:111-114`): `smplx` exactly when
the fitter returned the SMPL-X variant. -/
def smplTypeOf (isSmplx : Bool) : String :=
  if isSmplx then "smplx" else "smpl"

/-- Body-model parameters artifact name (`process_smc.py:115-116`). -/
def smplDataFileName (smcName : String) (isSmplx : Bool) : String :=
  smcName ++ "_" ++ smplTypeOf isSmplx ++ "_data.npz"

/-! ## Python `range(0, n, 3)` (visualization loop, `process_smc.py:141`) -/

/-- Elements of Python's `range(0, n, 3)`: the multiples of three below `n`. -/
def pyRange3 (n : Nat) : List Nat :=
  (List.range ((n + 2) / 3)).map (· * 3)

theorem mem_pyRange3 (n v : Nat) : v ∈ pyRange3 n ↔ v % 3 = 0 ∧ v < n := by
  constructor
  · intro h
    rcases List.mem_map.mp h with ⟨k, hk, rfl⟩
    have hk' := List.mem_range.mp hk
    omega
  · intro ⟨h3, hn⟩
    refine List.mem_map.mpr ⟨v / 3, List.mem_range.mpr ?_, ?_⟩ <;> omega

/-! ## The pipeline driver `main` as an event-trace machine

The driver (`process_smc.py:28-195`) is embedded as a pure function from the
command-line arguments and an environment (filesystem state, capture contents,
and the behavior of external collaborators) to the ordered list of observable
events it performs, together with the error that aborted it, if any. -/

/-- The `--frame_file` choice (`process_smc.py:221-228`). -/
inductive FrameFile
  | none
  | temp
  | keep
deriving DecidableEq

/-- Path-existence states, mirroring `xrprimer.utils.path_utils.Existence`. -/
inductive Existence
  | FileExist
  | FileNotExist
  | DirectoryExistEmpty
  | DirectoryExistNotEmpty
  | DirectoryNotExist
  | MissingParent
deriving DecidableEq

/-- Command-line arguments of the driver (`process_smc.py:198-236`). -/
structure Args where
  smc_path : String
  output_dir : String
  disable_log_file : Bool
  frame_file : FrameFile
  visualize : Bool

/-- Steps delegated to external collaborators or the filesystem; each can
fail (raise), aborting the run (spec §7, external collaborator failures). -/
inductive Stage
  | estimate2d (v : Nat)
  | runBatch
  | triangulate3d
  | fitSmpl
  | dump2d (v : Nat)
  | dump3d
  | dumpSmpl
  | visualizeStep
deriving DecidableEq

/-- Errors aborting the run. -/
inductive Err
  | fileNotFound
  | emptyContainer
  | collaborator (s : Stage)
deriving DecidableEq

/-- Observable events of one driver run, in program order. -/
inductive Event
  | mkdirOutputDir
  | createLogFile
  | decodeInMemory (v : Nat)
  | materializeFrames (v : Nat)
  | dumpKeypoints2d (v : Nat)
  | warnNoKeypoints2d (v : Nat)
  | dumpKeypoints3d
  | dumpSmplData (variant : String)
  | rmTempFrameDir
  | writeKp3dVideo
  | projectAllViews
  | writeProjVideo (v : Nat)
  | writeSmplOverlayVideo
deriving DecidableEq

/-- Result of (a prefix of) a run: the events performed so far and the error
that stopped it, if any. -/
abbrev RunResult := List Event × Option Err

/-- Environment of one run: filesystem state at start, capture contents, and
the behavior of the external collaborators. -/
structure Env where
  outputDirExistence : Existence
  smcExistence : Existence
  numKinects : Nat
  viewDirExistence : Nat → Existence
  detections : Nat → Bool
  isSmplx : Bool
  failAt : Stage → Bool

/-- Sequencing: a failed prefix discards the continuation, a successful prefix
accumulates its events before the continuation's. -/
def seqRun : RunResult → (Unit → RunResult) → RunResult
  | (tr, some e), _ => (tr, some e)
  | (tr, Option.none), f => (tr ++ (f ()).1, (f ()).2)

/-- Events preceding the input-path check: creation of a missing output
directory (`process_smc.py:33-34`) and of the log file
(`process_smc.py:37-40`). -/
def prefixEvents (a : Args) (ev : Env) : List Event :=
  (if ev.outputDirExistence = Existence.DirectoryNotExist then
    [Event.mkdirOutputDir] else [])
    ++ (if a.disable_log_file then [] else [Event.createLogFile])

/-- One iteration of the acquisition loop (`process_smc.py:70-90`): the
in-memory strategy decodes and immediately calls the per-view estimator; the
on-disk strategies materialize frames unless the `keep` strategy finds an
already non-empty per-view directory (`process_smc.py:82-83`). -/
def viewStep (a : Args) (ev : Env) (v : Nat) : RunResult :=
  if a.frame_file = FrameFile.none then
    ([Event.decodeInMemory v],
      if ev.failAt (Stage.estimate2d v) then
        some (Err.collaborator (Stage.estimate2d v))
      else Option.none)
  else if a.frame_file = FrameFile.keep ∧
      ev.viewDirExistence v = Existence.DirectoryExistNotEmpty then
    ([], Option.none)
  else
    ([Event.decodeInMemory v, Event.materializeFrames v], Option.none)

/-- The acquisition loop over the listed views. -/
def viewLoop (a : Args) (ev : Env) : List Nat → RunResult
  | [] => ([], Option.none)
  | v :: vs => seqRun (viewStep a ev v) fun _ => viewLoop a ev vs

/-- Estimation (`process_smc.py:91-98`): one batch `run` call for the on-disk
strategies, explicit triangulation then body-model fitting for the in-memory
strategy.  These calls write nothing; they can only fail. -/
def estimationStep (a : Args) (ev : Env) : RunResult :=
  ([],
    if a.frame_file = FrameFile.none then
      if ev.failAt Stage.triangulate3d then
        some (Err.collaborator Stage.triangulate3d)
      else if ev.failAt Stage.fitSmpl then
        some (Err.collaborator Stage.fitSmpl)
      else Option.none
    else
      if ev.failAt Stage.runBatch then
        some (Err.collaborator Stage.runBatch)
      else Option.none)

/-- One iteration of the writer loop (`process_smc.py:99-107`): dump the
per-view keypoints when present, warn otherwise. -/
def writerStep (ev : Env) (v : Nat) : RunResult :=
  if ev.detections v then
    if ev.failAt (Stage.dump2d v) then
      ([], some (Err.collaborator (Stage.dump2d v)))
    else ([Event.dumpKeypoints2d v], Option.none)
  else ([Event.warnNoKeypoints2d v], Option.none)

/-- The writer loop over the listed views. -/
def writerLoop (ev : Env) : List Nat → RunResult
  | [] => ([], Option.none)
  | v :: vs => seqRun (writerStep ev v) fun _ => writerLoop ev vs

/-- Keypoints3d dump (`process_smc.py:108-110`). -/
def dump3dStep (ev : Env) : RunResult :=
  if ev.failAt Stage.dump3d then ([], some (Err.collaborator Stage.dump3d))
  else ([Event.dumpKeypoints3d], Option.none)

/-- Body-model dump with variant discrimination (`process_smc.py:111-117`). -/
def dumpSmplStep (ev : Env) : RunResult :=
  if ev.failAt Stage.dumpSmpl then ([], some (Err.collaborator Stage.dumpSmpl))
  else ([Event.dumpSmplData (smplTypeOf ev.isSmplx)], Option.none)

/-- Temporary-cache removal (`process_smc.py:118-119`), performed only under
the `temp` strategy and only when reached. -/
def cleanupStep (a : Args) : RunResult :=
  ((if a.frame_file = FrameFile.temp then [Event.rmTempFrameDir] else []),
    Option.none)

/-- Events of the visualization stage (`process_smc.py:122-195`): the 3D video,
the projection of the fused result into all views, an overlay video for every
third view index (`process_smc.py:141`), and the body-model overlay. -/
def visEvents (ev : Env) : List Event :=
  Event.writeKp3dVideo :: Event.projectAllViews ::
    ((pyRange3 ev.numKinects).map Event.writeProjVideo
      ++ [Event.writeSmplOverlayVideo])

/-- Visualization stage, only run when requested (`process_smc.py:122`). -/
def visStep (a : Args) (ev : Env) : RunResult :=
  if a.visualize then
    (visEvents ev,
      if ev.failAt Stage.visualizeStep then
        some (Err.collaborator Stage.visualizeStep)
      else Option.none)
  else ([], Option.none)

/-- The driver entry function (`process_smc.py:28-195`): output-directory check
(`:30-34`), log-file creation (`:37-42`), input-path check (`:44-46`),
calibration loading — which, modelled from the spec (§4.1), signals a
configuration error on an empty capture container — acquisition loop,
estimation, the Result Writer, temporary-cache cleanup, and visualization. -/
def mainRun (a : Args) (ev : Env) : RunResult :=
  if ev.outputDirExistence = Existence.MissingParent then
    ([], some Err.fileNotFound)
  else if ev.smcExistence ≠ Existence.FileExist then
    (prefixEvents a ev, some Err.fileNotFound)
  else if ev.numKinects = 0 then
    (prefixEvents a ev, some Err.emptyContainer)
  else
    seqRun (prefixEvents a ev, Option.none) fun _ =>
    seqRun (viewLoop a ev (List.range ev.numKinects)) fun _ =>
    seqRun (estimationStep a ev) fun _ =>
    seqRun (writerLoop ev (List.range ev.numKinects)) fun _ =>
    seqRun (dump3dStep ev) fun _ =>
    seqRun (dumpSmplStep ev) fun _ =>
    seqRun (cleanupStep a) fun _ =>
    visStep a ev

/-! ## Trace lemmas -/

/-- Events emitted for one view by the acquisition loop when no collaborator
fails. -/
def viewEvents (a : Args) (ev : Env) (v : Nat) : List Event :=
  if a.frame_file = FrameFile.none then [Event.decodeInMemory v]
  else if a.frame_file = FrameFile.keep ∧
      ev.viewDirExistence v = Existence.DirectoryExistNotEmpty then []
  else [Event.decodeInMemory v, Event.materializeFrames v]

/-- Events emitted for one view by the writer loop when no collaborator
fails. -/
def writerEvents (ev : Env) (v : Nat) : List Event :=
  if ev.detections v then [Event.dumpKeypoints2d v]
  else [Event.warnNoKeypoints2d v]

/-- Concatenated per-view events over a list of views. -/
def eventsOf (f : Nat → List Event) : List Nat → List Event
  | [] => []
  | v :: vs => f v ++ eventsOf f vs

theorem mem_eventsOf (f : Nat → List Event) (l : List Nat) (x : Event) :
    x ∈ eventsOf f l ↔ ∃ v ∈ l, x ∈ f v := by
  induction l with
  | nil => simp [eventsOf]
  | cons v vs ih => simp [eventsOf, ih, List.mem_append, or_and_right, exists_or]

theorem mem_fst_seqRun (x : Event) (r : RunResult) (f : Unit → RunResult) :
    x ∈ (seqRun r f).1 ↔ x ∈ r.1 ∨ (r.2 = Option.none ∧ x ∈ (f ()).1) := by
  rcases r with ⟨tr, e⟩
  cases e <;> simp [seqRun]

theorem snd_seqRun (r : RunResult) (f : Unit → RunResult) :
    (seqRun r f).2 = if r.2 = Option.none then (f ()).2 else r.2 := by
  rcases r with ⟨tr, e⟩
  cases e <;> simp [seqRun]

theorem viewStep_nofail (a : Args) (ev : Env) (v : Nat)
    (hf : ∀ s, ev.failAt s = false) :
    viewStep a ev v = (viewEvents a ev v, Option.none) := by
  unfold viewStep viewEvents
  split <;> [simp [hf]; split <;> simp]

theorem viewLoop_nofail (a : Args) (ev : Env) (l : List Nat)
    (hf : ∀ s, ev.failAt s = false) :
    viewLoop a ev l = (eventsOf (viewEvents a ev) l, Option.none) := by
  induction l with
  | nil => rfl
  | cons v vs ih => simp [viewLoop, viewStep_nofail a ev v hf, ih, seqRun, eventsOf]

theorem writerStep_nofail (ev : Env) (v : Nat)
    (hf : ∀ s, ev.failAt s = false) :
    writerStep ev v = (writerEvents ev v, Option.none) := by
  unfold writerStep writerEvents
  split <;> simp [hf]

theorem writerLoop_nofail (ev : Env) (l : List Nat)
    (hf : ∀ s, ev.failAt s = false) :
    writerLoop ev l = (eventsOf (writerEvents ev) l, Option.none) := by
  induction l with
  | nil => rfl
  | cons v vs ih => simp [writerLoop, writerStep_nofail ev v hf, ih, seqRun, eventsOf]

/-- The full trace of a successful run. -/
def happyTrace (a : Args) (ev : Env) : List Event :=
  prefixEvents a ev
    ++ (eventsOf (viewEvents a ev) (List.range ev.numKinects)
    ++ (eventsOf (writerEvents ev) (List.range ev.numKinects)
    ++ ([Event.dumpKeypoints3d]
    ++ ([Event.dumpSmplData (smplTypeOf ev.isSmplx)]
    ++ ((if a.frame_file = FrameFile.temp then [Event.rmTempFrameDir] else [])
    ++ (if a.visualize then visEvents ev else []))))))

/-- A run with a valid configuration and no collaborator failure performs
exactly the happy trace and does not abort. -/
theorem mainRun_nofail (a : Args) (ev : Env)
    (h1 : ev.outputDirExistence ≠ Existence.MissingParent)
    (h2 : ev.smcExistence = Existence.FileExist)
    (h3 : ev.numKinects ≠ 0)
    (hf : ∀ s, ev.failAt s = false) :
    mainRun a ev = (happyTrace a ev, Option.none) := by
  unfold mainRun happyTrace
  rw [if_neg h1, if_neg (by simp [h2]), if_neg h3]
  rw [viewLoop_nofail a ev _ hf, writerLoop_nofail ev _ hf]
  unfold estimationStep dump3dStep dumpSmplStep cleanupStep visStep
  by_cases hv : a.visualize <;> simp [hf, hv, seqRun, ite_self]

theorem mem_prefixEvents_shape (a : Args) (ev : Env) (x : Event)
    (hx : x ∈ prefixEvents a ev) :
    x = Event.mkdirOutputDir ∨ x = Event.createLogFile := by
  unfold prefixEvents at hx
  rcases List.mem_append.mp hx with h | h <;> split at h <;> simp_all

theorem mem_viewLoop_shape (a : Args) (ev : Env) (l : List Nat) (x : Event)
    (hx : x ∈ (viewLoop a ev l).1) :
    ∃ v, x = Event.decodeInMemory v ∨ x = Event.materializeFrames v := by
  induction l with
  | nil => simp [viewLoop] at hx
  | cons v vs ih =>
    rw [viewLoop, mem_fst_seqRun] at hx
    rcases hx with h | ⟨-, h⟩
    · unfold viewStep at h
      split at h
      · simp at h
        exact ⟨v, Or.inl h⟩
      · split at h <;> simp at h
        rcases h with h | h
        · exact ⟨v, Or.inl h⟩
        · exact ⟨v, Or.inr h⟩
    · exact ih h

theorem mem_writerLoop_shape (ev : Env) (l : List Nat) (x : Event)
    (hx : x ∈ (writerLoop ev l).1) :
    ∃ v, x = Event.dumpKeypoints2d v ∨ x = Event.warnNoKeypoints2d v := by
  induction l with
  | nil => simp [writerLoop] at hx
  | cons v vs ih =>
    rw [writerLoop, mem_fst_seqRun] at hx
    rcases hx with h | ⟨-, h⟩
    · unfold writerStep at h
      split at h
      · split at h <;> simp at h
        exact ⟨v, Or.inl h⟩
      · simp at h
        exact ⟨v, Or.inr h⟩
    · exact ih h

theorem mem_visEvents_shape (ev : Env) (x : Event) (hx : x ∈ visEvents ev) :
    x = Event.writeKp3dVideo ∨ x = Event.projectAllViews ∨
      (∃ v, x = Event.writeProjVideo v) ∨ x = Event.writeSmplOverlayVideo := by
  unfold visEvents at hx
  simp at hx
  tauto

theorem mem_visStep_shape (a : Args) (ev : Env) (x : Event)
    (hx : x ∈ (visStep a ev).1) :
    x = Event.writeKp3dVideo ∨ x = Event.projectAllViews ∨
      (∃ v, x = Event.writeProjVideo v) ∨ x = Event.writeSmplOverlayVideo := by
  unfold visStep at hx
  split at hx
  · exact mem_visEvents_shape ev x hx
  · simp at hx

/-- The condition under which a run gets through the whole Result Writer:
valid configuration and no failure at or before the body-model dump. -/
def completesArtifacts (a : Args) (ev : Env) : Prop :=
  ev.outputDirExistence ≠ Existence.MissingParent ∧
  ev.smcExistence = Existence.FileExist ∧
  ev.numKinects ≠ 0 ∧
  (viewLoop a ev (List.range ev.numKinects)).2 = Option.none ∧
  (estimationStep a ev).2 = Option.none ∧
  (writerLoop ev (List.range ev.numKinects)).2 = Option.none ∧
  ev.failAt Stage.dump3d = false ∧
  ev.failAt Stage.dumpSmpl = false

theorem rm_mem_mainRun_iff (a : Args) (ev : Env)
    (htemp : a.frame_file = FrameFile.temp) :
    Event.rmTempFrameDir ∈ (mainRun a ev).1 ↔ completesArtifacts a ev := by
  unfold mainRun completesArtifacts
  by_cases h1 : ev.outputDirExistence = Existence.MissingParent
  · simp [h1]
  by_cases h2 : ev.smcExistence = Existence.FileExist
  case neg =>
    rw [if_neg h1, if_pos (by simp [h2])]
    simp only [List.mem_singleton]
    constructor
    · intro hx
      rcases mem_prefixEvents_shape a ev _ hx with h | h <;> simp at h
    · tauto
  by_cases h3 : ev.numKinects = 0
  · rw [if_neg h1, if_neg (by simp [h2]), if_pos h3]
    constructor
    · intro hx
      rcases mem_prefixEvents_shape a ev _ hx with h | h <;> simp at h
    · tauto
  rw [if_neg h1, if_neg (by simp [h2]), if_neg h3]
  simp only [mem_fst_seqRun]
  constructor
  · intro hx
    rcases hx with hx | ⟨-, hx | ⟨hv, hx | ⟨he, hx | ⟨hw, hx⟩⟩⟩⟩
    · rcases mem_prefixEvents_shape a ev _ hx with h | h <;> simp at h
    · rcases mem_viewLoop_shape a ev _ _ hx with ⟨v, h | h⟩ <;> simp at h
    · simp [estimationStep] at hx
    · rcases mem_writerLoop_shape ev _ _ hx with ⟨v, h | h⟩ <;> simp at h
    · cases hd3 : ev.failAt Stage.dump3d with
      | true => simp [dump3dStep, hd3] at hx
      | false =>
        cases hds : ev.failAt Stage.dumpSmpl with
        | true => simp [dump3dStep, dumpSmplStep, hd3, hds] at hx
        | false => exact ⟨h1, h2, h3, hv, he, hw, rfl, rfl⟩
  · rintro ⟨-, -, -, hv, he, hw, hd3, hds⟩
    refine Or.inr ⟨trivial, Or.inr ⟨hv, Or.inr ⟨he, Or.inr ⟨hw, Or.inr
      ⟨by simp [dump3dStep, hd3], Or.inr ⟨by simp [dumpSmplStep, hds],
        Or.inl (by simp [cleanupStep, htemp])⟩⟩⟩⟩⟩⟩

theorem smpl_mem_mainRun_iff (a : Args) (ev : Env) :
    Event.dumpSmplData (smplTypeOf ev.isSmplx) ∈ (mainRun a ev).1 ↔
      completesArtifacts a ev := by
  unfold mainRun completesArtifacts
  by_cases h1 : ev.outputDirExistence = Existence.MissingParent
  · simp [h1]
  by_cases h2 : ev.smcExistence = Existence.FileExist
  case neg =>
    rw [if_neg h1, if_pos (by simp [h2])]
    constructor
    · intro hx
      rcases mem_prefixEvents_shape a ev _ hx with h | h <;> simp at h
    · tauto
  by_cases h3 : ev.numKinects = 0
  · rw [if_neg h1, if_neg (by simp [h2]), if_pos h3]
    constructor
    · intro hx
      rcases mem_prefixEvents_shape a ev _ hx with h | h <;> simp at h
    · tauto
  rw [if_neg h1, if_neg (by simp [h2]), if_neg h3]
  simp only [mem_fst_seqRun]
  constructor
  · intro hx
    rcases hx with hx | ⟨-, hx | ⟨hv, hx | ⟨he, hx | ⟨hw, hx⟩⟩⟩⟩
    · rcases mem_prefixEvents_shape a ev _ hx with h | h <;> simp at h
    · rcases mem_viewLoop_shape a ev _ _ hx with ⟨v, h | h⟩ <;> simp at h
    · simp [estimationStep] at hx
    · rcases mem_writerLoop_shape ev _ _ hx with ⟨v, h | h⟩ <;> simp at h
    · cases hd3 : ev.failAt Stage.dump3d with
      | true => simp [dump3dStep, hd3] at hx
      | false =>
        cases hds : ev.failAt Stage.dumpSmpl with
        | true => simp [dump3dStep, dumpSmplStep, hd3, hds] at hx
        | false => exact ⟨h1, h2, h3, hv, he, hw, rfl, rfl⟩
  · rintro ⟨-, -, -, hv, he, hw, hd3, hds⟩
    refine Or.inr ⟨trivial, Or.inr ⟨hv, Or.inr ⟨he, Or.inr ⟨hw, Or.inr
      ⟨by simp [dump3dStep, hd3], Or.inl (by simp [dumpSmplStep, hds])⟩⟩⟩⟩⟩

theorem kp3d_mem_of_completes (a : Args) (ev : Env)
    (hc : completesArtifacts a ev) :
    Event.dumpKeypoints3d ∈ (mainRun a ev).1 := by
  obtain ⟨h1, h2, h3, hv, he, hw, hd3, hds⟩ := hc
  unfold mainRun
  rw [if_neg h1, if_neg (by simp [h2]), if_neg h3]
  simp only [mem_fst_seqRun]
  exact Or.inr ⟨trivial, Or.inr ⟨hv, Or.inr ⟨he, Or.inr ⟨hw,
    Or.inl (by simp [dump3dStep, hd3])⟩⟩⟩⟩

/-! ## Triangulator (spec §4.4), modelled from the spec

The triangulator is part of the external estimator
(`mview_sp_smpl_estimator.estimate_keypoints3d`, `process_smc.py:95-96`) whose
code is not in the source extract; it is modelled from spec §4.4. -/

/-- One view's 2D keypoints: per-frame per-joint coordinates and validity
mask (spec §3, Keypoints2D). -/
structure Kp2dView where
  kps : Nat → Nat → ℚ × ℚ
  mask : Nat → Nat → Bool

/-- The observation view `v` offers for frame `f`, joint `j`: present exactly
when the view has a Keypoints2D and marks that joint valid in that frame. -/
def obsOf (views : List (Option Kp2dView)) (f j v : Nat) : Option (ℚ × ℚ) :=
  match views.get? v with
  | some (some k2) => if k2.mask f j then some (k2.kps f j) else Option.none
  | _ => Option.none

/-- Modelled from the spec: the contributing observations for frame `f`,
joint `j` — indexed observations of exactly those views that are present and
mark the joint valid (§4.4). -/
def contributingObs (views : List (Option Kp2dView)) (f j : Nat) :
    List (Nat × (ℚ × ℚ)) :=
  (List.range views.length).filterMap fun v =>
    (obsOf views f j v).map fun p => (v, p)

/-- Fused 3D keypoints: per-frame per-joint optional position and validity
mask (spec §3, Keypoints3D). -/
structure Kp3dOut where
  pos : Nat → Nat → Option (ℚ × ℚ × ℚ)
  mask : Nat → Nat → Bool

/-- Modelled from the spec: multi-view triangulation (§4.4).  `solve` is the
least-squares solver applied to the contributing observations; a joint with
fewer than two contributing views is masked invalid and given no position. -/
def triangulateViews (solve : List (Nat × (ℚ × ℚ)) → ℚ × ℚ × ℚ)
    (views : List (Option Kp2dView)) : Kp3dOut where
  pos f j :=
    if 2 ≤ (contributingObs views f j).length then
      some (solve (contributingObs views f j))
    else Option.none
  mask f j := decide (2 ≤ (contributingObs views f j).length)

theorem mem_contributingObs (views : List (Option Kp2dView)) (f j v : Nat)
    (p : ℚ × ℚ) :
    (v, p) ∈ contributingObs views f j ↔ obsOf views f j v = some p := by
  unfold contributingObs
  simp only [List.mem_filterMap, List.mem_range, Option.map_eq_some']
  constructor
  · rintro ⟨w, -, q, hq, heq⟩
    cases heq
    exact hq
  · intro h
    have hv : v < views.length := by
      by_contra hge
      have : views.get? v = Option.none := List.get?_eq_none.mpr (by omega)
      rw [obsOf, this] at h
      simp at h
    exact ⟨v, hv, p, h, rfl⟩

/-! ## The two estimation paths (spec §4.3, §9 open question)

`estimate_keypoints2d` / `estimate_keypoints3d` / `estimate_smpl` and the
batch `run` belong to the external estimator
(`xrmocap.core.estimation`), whose code is not in the source extract; the
batch call is modelled from spec §4.3 as delegating the entire
estimate→triangulate→fit sequence in one shot. -/

/-- The external estimator's three primitive operations, abstracted. -/
structure MViewEstimator (F K2 K3 S C : Type) where
  estimate_keypoints2d : List F → Option K2
  estimate_keypoints3d : List C → List (Option K2) → K3
  estimate_smpl : K3 → S

/-- Modelled from the spec: the estimator's batch `run`
(`process_smc.py:92-93`) performs per-view 2D estimation over all views, then
triangulation, then body-model fitting, in one call (§4.3). -/
def MViewEstimator.run {F K2 K3 S C : Type} (e : MViewEstimator F K2 K3 S C)
    (cams : List C) (mviewImgs : List (List F)) :
    List (Option K2) × K3 × S :=
  let kp2dList := mviewImgs.map e.estimate_keypoints2d
  let kp3d := e.estimate_keypoints3d cams kp2dList
  (kp2dList, kp3d, e.estimate_smpl kp3d)

/-- The in-memory path (`process_smc.py:70-77` and `:94-98`): per view, color
conversion then a single-view estimator call, accumulating the per-view
results in camera-index order; afterwards explicit triangulation and explicit
body-model fitting. -/
def inMemoryPath {F K2 K3 S C : Type} (e : MViewEstimator F K2 K3 S C)
    (bgr : F → F) (cams : List C) (rawViews : List (List F)) :
    List (Option K2) × K3 × S :=
  let kp2dList := rawViews.foldl
    (fun acc raw => acc ++ [e.estimate_keypoints2d (raw.map bgr)]) []
  let kp3d := e.estimate_keypoints3d cams kp2dList
  (kp2dList, kp3d, e.estimate_smpl kp3d)

/-- The on-disk path (`process_smc.py:79-93`): per view, color conversion then
materialization to per-frame image files; afterwards one batch `run` call on
the reloaded frames.  `store`/`load` model the image file round-trip. -/
def onDiskPath {F G K2 K3 S C : Type} (e : MViewEstimator F K2 K3 S C)
    (bgr : F → F) (store : F → G) (load : G → F) (cams : List C)
    (rawViews : List (List F)) : List (Option K2) × K3 × S :=
  e.run cams (rawViews.map fun raw => ((raw.map bgr).map store).map load)

theorem foldl_append_singleton {α β : Type} (g : α → β) :
    ∀ (l : List α) (acc : List β),
      l.foldl (fun acc x => acc ++ [g x]) acc = acc ++ l.map g := by
  intro l
  induction l with
  | nil => simp
  | cons x xs ih => intro acc; simp [List.foldl_cons, ih]

/-! ## Ordering of materialized frame paths (`process_smc.py:88-90`)

`sorted(glob.glob(os.path.join(view_temp_dir, '*.png')))` sorts the full
per-view frame paths lexicographically; all of them share the view-directory
prefix, so this equals the lexical order of the filenames. -/

theorem lex_append_left_iff (p a b : List Char) :
    List.Lex (fun c d => c < d) (p ++ a) (p ++ b) ↔
      List.Lex (fun c d => c < d) a b := by
  constructor
  · intro h
    induction p with
    | nil => exact h
    | cons c p ih =>
      cases h with
      | cons h' => exact ih h'
      | rel hr => exact absurd hr (lt_irrefl c)
  · intro h
    exact List.Lex.append_left _ h p

theorem string_append_lt_iff (p a b : String) : p ++ a < p ++ b ↔ a < b := by
  rw [String.lt_iff_toList_lt, String.lt_iff_toList_lt]
  show (p ++ a).data < (p ++ b).data ↔ a.data < b.data
  rw [String.data_append]
  show List.Lex (fun c d => c < d) _ _ ↔ List.Lex (fun c d => c < d) _ _
  exact lex_append_left_iff p.data a.data b.data

theorem string_append_le_iff (p a b : String) : p ++ a ≤ p ++ b ↔ a ≤ b := by
  rw [← not_lt, ← not_lt]
  exact not_congr (string_append_lt_iff p b a)

/-- The per-view frame path list handed to the estimator
(`process_smc.py:88-90`): the glob results, sorted. -/
def sviewImgList (viewDir : String) (names : List String) : List String :=
  List.insertionSort (fun s t => s ≤ t)
    (names.map fun nm => (viewDir ++ "/") ++ nm)

theorem insertionSort_map_prepend (p : String) (names : List String) :
    List.insertionSort (fun s t => s ≤ t) (names.map fun nm => p ++ nm) =
      (List.insertionSort (fun s t => s ≤ t) names).map fun nm => p ++ nm := by
  have hperm : List.Perm
      (List.insertionSort (fun s t => s ≤ t) (names.map fun nm => p ++ nm))
      ((List.insertionSort (fun s t => s ≤ t) names).map fun nm => p ++ nm) :=
    (List.perm_insertionSort _ _).trans
      (((List.perm_insertionSort (fun s t => s ≤ t) names).map _).symm)
  have hs1 : List.Sorted (fun s t => s ≤ t)
      (List.insertionSort (fun s t => s ≤ t) (names.map fun nm => p ++ nm)) :=
    List.sorted_insertionSort _ _
  have hs2 : List.Sorted (fun s t => s ≤ t)
      ((List.insertionSort (fun s t => s ≤ t) names).map fun nm => p ++ nm) :=
    List.Pairwise.map _
      (fun a b hab => (string_append_le_iff p a b).mpr hab)
      (List.sorted_insertionSort (fun s t => s ≤ t) names)
  exact List.eq_of_perm_of_sorted hperm hs1 hs2

/-! ## Membership in the happy trace -/

theorem mem_ite_single {c : Prop} [Decidable c] (x e : Event) :
    x ∈ (if c then [e] else []) ↔ c ∧ x = e := by
  split <;> simp_all

theorem mem_ite_list {c : Prop} [Decidable c] (x : Event) (l : List Event) :
    x ∈ (if c then l else []) ↔ c ∧ x ∈ l := by
  split <;> simp_all

theorem mem_happyTrace_iff (a : Args) (ev : Env) (x : Event) :
    x ∈ happyTrace a ev ↔
      x ∈ prefixEvents a ev ∨
      x ∈ eventsOf (viewEvents a ev) (List.range ev.numKinects) ∨
      x ∈ eventsOf (writerEvents ev) (List.range ev.numKinects) ∨
      x = Event.dumpKeypoints3d ∨
      x = Event.dumpSmplData (smplTypeOf ev.isSmplx) ∨
      (a.frame_file = FrameFile.temp ∧ x = Event.rmTempFrameDir) ∨
      (a.visualize = true ∧ x ∈ visEvents ev) := by
  unfold happyTrace
  simp only [List.mem_append, List.mem_singleton, mem_ite_single, mem_ite_list]

theorem mem_viewEvents_iff (a : Args) (ev : Env) (w : Nat) (x : Event) :
    x ∈ viewEvents a ev w ↔
      (a.frame_file = FrameFile.none ∧ x = Event.decodeInMemory w) ∨
      (a.frame_file ≠ FrameFile.none ∧
        ¬(a.frame_file = FrameFile.keep ∧
          ev.viewDirExistence w = Existence.DirectoryExistNotEmpty) ∧
        (x = Event.decodeInMemory w ∨ x = Event.materializeFrames w)) := by
  unfold viewEvents
  split
  case isTrue h => simp [h]
  case isFalse h =>
    split
    case isTrue h' => simp [h, h']
    case isFalse h' => simp [h, h']

theorem mem_writerEvents_iff (ev : Env) (w : Nat) (x : Event) :
    x ∈ writerEvents ev w ↔
      (ev.detections w = true ∧ x = Event.dumpKeypoints2d w) ∨
      (ev.detections w = false ∧ x = Event.warnNoKeypoints2d w) := by
  unfold writerEvents
  cases h : ev.detections w <;> simp [h]

theorem mem_visEvents_iff (ev : Env) (x : Event) :
    x ∈ visEvents ev ↔
      x = Event.writeKp3dVideo ∨ x = Event.projectAllViews ∨
      (∃ w, w % 3 = 0 ∧ w < ev.numKinects ∧ x = Event.writeProjVideo w) ∨
      x = Event.writeSmplOverlayVideo := by
  unfold visEvents
  simp only [List.mem_cons, List.mem_append, List.mem_map, List.mem_singleton,
    List.not_mem_nil, or_false, mem_pyRange3]
  constructor
  · intro h
    rcases h with h | h | ⟨⟨w, ⟨hw3, hwn⟩, rfl⟩ | h⟩
    · exact Or.inl h
    · exact Or.inr (Or.inl h)
    · exact Or.inr (Or.inr (Or.inl ⟨w, hw3, hwn, rfl⟩))
    · exact Or.inr (Or.inr (Or.inr h))
  · intro h
    rcases h with h | h | ⟨w, hw3, hwn, rfl⟩ | h
    · exact Or.inl h
    · exact Or.inr (Or.inl h)
    · exact Or.inr (Or.inr (Or.inl ⟨w, ⟨hw3, hwn⟩, rfl⟩))
    · exact Or.inr (Or.inr (Or.inr h))

/-! ## Concrete instances used to instantiate the theorems below -/

/-- An environment whose configuration checks all pass: four cameras, view 2
without detections, no collaborator failures. -/
def envHappy : Env where
  outputDirExistence := Existence.DirectoryExistEmpty
  smcExistence := Existence.FileExist
  numKinects := 4
  viewDirExistence := fun _ => Existence.DirectoryNotExist
  detections := fun v => v != 2
  isSmplx := true
  failAt := fun _ => false

/-- Default-style arguments: in-memory strategy, file logging enabled. -/
def argsBase : Args where
  smc_path := "/data/session07.smc"
  output_dir := "/out"
  disable_log_file := false
  frame_file := FrameFile.none
  visualize := false

/-- Environment with a nonexistent input capture file. -/
def envNoSmc : Env :=
  { envHappy with smcExistence := Existence.FileNotExist }

/-- A concrete pre-normalization camera flagged world-to-camera. -/
def camW : CameraParameter where
  intrinsic := 1
  extrinsic_r := 1
  extrinsic_t := fun _ => 1
  world2cam := true

/-! ## The claims -/

/-- C1: after the Calibration Normalizer runs, every CameraParameter is stored
in the camera-to-world convention: a camera whose raw calibration was flagged
world-to-camera has the flag cleared and rotation/translation replaced by the
exact inverse of the pre-normalization extrinsic (R is inverted two-sidedly,
T becomes -R⁻¹T); and the one later pipeline stage that inspects the flag
(`process_smc.py:176-178`) observes camera-to-world and leaves the parameter
unchanged. -/
theorem calibration_normalizer_invariant (raw : List CameraParameter)
    (i : Nat) (c c' : CameraParameter)
    (hc : raw.get? i = some c)
    (hc' : (get_all_color_kinect_parameter_from_smc raw).get? i = some c') :
    c'.world2cam = false ∧
    visualizationCam c' = c' ∧
    (c.world2cam = false → c' = c) ∧
    (c.world2cam = true →
      c'.extrinsic_r = minv c.extrinsic_r ∧
      c'.extrinsic_t = -((minv c.extrinsic_r).mulVec c.extrinsic_t) ∧
      (c.extrinsic_r.det ≠ 0 →
        c'.extrinsic_r * c.extrinsic_r = 1 ∧
        c.extrinsic_r * c'.extrinsic_r = 1)) := by
  rw [get_all_color_kinect_parameter_from_smc, List.get?_map, hc,
    Option.map_some'] at hc'
  injection hc' with hc'
  by_cases hw : c.world2cam = true
  · rw [if_pos hw] at hc'
    subst hc'
    refine ⟨?_, ?_, ?_, ?_⟩
    · simp [CameraParameter.inverse_extrinsic, hw]
    · simp [visualizationCam, CameraParameter.inverse_extrinsic, hw]
    · intro h
      rw [hw] at h
      cases h
    · intro _
      exact ⟨rfl, rfl, fun hdet => ⟨minv_mul_self hdet, mul_minv_self hdet⟩⟩
  · rw [if_neg hw] at hc'
    subst hc'
    have hw' : c.world2cam = false := by
      cases h : c.world2cam
      · rfl
      · exact absurd h hw
    refine ⟨hw', by simp [visualizationCam, hw'], fun _ => rfl, ?_⟩
    intro h
    rw [hw'] at h
    cases h

/-- Witness for `calibration_normalizer_invariant` at a concrete camera list
containing one world-to-camera camera. -/
theorem calibration_normalizer_invariant_witness :
    (camW.inverse_extrinsic).world2cam = false ∧
    visualizationCam camW.inverse_extrinsic = camW.inverse_extrinsic ∧
    (camW.world2cam = false → camW.inverse_extrinsic = camW) ∧
    (camW.world2cam = true →
      (camW.inverse_extrinsic).extrinsic_r = minv camW.extrinsic_r ∧
      (camW.inverse_extrinsic).extrinsic_t =
        -((minv camW.extrinsic_r).mulVec camW.extrinsic_t) ∧
      (camW.extrinsic_r.det ≠ 0 →
        (camW.inverse_extrinsic).extrinsic_r * camW.extrinsic_r = 1 ∧
        camW.extrinsic_r * (camW.inverse_extrinsic).extrinsic_r = 1)) :=
  calibration_normalizer_invariant [camW] 0 camW camW.inverse_extrinsic rfl rfl

theorem prefixEvents_all (a : Args) (ev : Env) :
    ((prefixEvents a ev).all fun e =>
      (e == Event.mkdirOutputDir) || (e == Event.createLogFile)) = true := by
  unfold prefixEvents
  split <;> split <;> simp

theorem prefixEvents_all_disabled (a : Args) (ev : Env)
    (h : a.disable_log_file = true) :
    ((prefixEvents a ev).all fun e => e == Event.mkdirOutputDir) = true := by
  unfold prefixEvents
  rw [if_pos h]
  split <;> simp

/-- C2 counterexample: a run invoked with a nonexistent input file path (and
file logging enabled, the default) aborts, but only after a log file has
already been created in the output directory — the output directory is not
left free of newly created files. -/
theorem config_error_aborts_cx :
    (mainRun argsBase envNoSmc).2 = some Err.fileNotFound ∧
    Event.createLogFile ∈ (mainRun argsBase envNoSmc).1 := by
  decide

/-- C2 (amended): a run that fails a configuration check (missing output-dir
parent, missing/invalid input file, or empty capture container) aborts before
any pipeline stage runs: no frames are decoded or materialized and no artifact
is written — the only events that may precede the abort are creation of the
output directory itself and of the run's log file; with file logging
disabled, no file at all is created in the output directory. -/
theorem config_error_aborts (a : Args) (ev : Env)
    (hcfg : ev.outputDirExistence = Existence.MissingParent ∨
      ev.smcExistence ≠ Existence.FileExist ∨ ev.numKinects = 0) :
    (mainRun a ev).2 ≠ Option.none ∧
    ((mainRun a ev).1.all fun e =>
      (e == Event.mkdirOutputDir) || (e == Event.createLogFile)) = true ∧
    (a.disable_log_file = true →
      ((mainRun a ev).1.all fun e => e == Event.mkdirOutputDir) = true) := by
  unfold mainRun
  by_cases h1 : ev.outputDirExistence = Existence.MissingParent
  · rw [if_pos h1]
    exact ⟨by simp, by simp, fun _ => by simp⟩
  rw [if_neg h1]
  by_cases h2 : ev.smcExistence = Existence.FileExist
  case neg =>
    rw [if_pos (by simp [h2])]
    exact ⟨by simp, prefixEvents_all a ev, prefixEvents_all_disabled a ev⟩
  by_cases h3 : ev.numKinects = 0
  · rw [if_neg (by simp [h2]), if_pos h3]
    exact ⟨by simp, prefixEvents_all a ev, prefixEvents_all_disabled a ev⟩
  · rcases hcfg with h | h | h <;> contradiction

/-- Witness for `config_error_aborts` at a concrete missing-input run. -/
theorem config_error_aborts_witness :
    (mainRun argsBase envNoSmc).2 ≠ Option.none ∧
    ((mainRun argsBase envNoSmc).1.all fun e =>
      (e == Event.mkdirOutputDir) || (e == Event.createLogFile)) = true ∧
    (argsBase.disable_log_file = true →
      ((mainRun argsBase envNoSmc).1.all fun e =>
        e == Event.mkdirOutputDir) = true) :=
  config_error_aborts argsBase envNoSmc (Or.inr (Or.inl (by decide)))

/-- C3 counterexample: the Result Writer appends the `.npz` extension, so for
capture identifier `session07` the artifacts are not named exactly
`session07_keypoints3d` and `session07_smplx_data`. -/
theorem result_writer_naming_cx :
    keypoints3dFileName "session07" ≠ "session07_keypoints3d" ∧
    smplDataFileName "session07" true ≠ "session07_smplx_data" := by
  decide

/-- C3 (amended): the Result Writer's artifact names are exactly the claimed
stems with the `.npz` extension appended — `{captureId}_keypoints2d_view{NN}.npz`
per present view, `{captureId}_keypoints3d.npz`, and
`{captureId}_{variant}_data.npz` with variant `smplx` exactly when the fitter
returned the SMPL-X variant; for capture identifier `session07` (derived from
its path) and an SMPL-X fit: `session07_keypoints3d.npz` and
`session07_smplx_data.npz`. -/
theorem result_writer_naming (smc : String) (i : Nat) (isx : Bool) :
    kps2dFileName smc i = smc ++ "_keypoints2d_view" ++ pad2 i ++ ".npz" ∧
    keypoints3dFileName smc = smc ++ "_keypoints3d" ++ ".npz" ∧
    smplDataFileName smc isx =
      smc ++ "_" ++ smplTypeOf isx ++ "_data" ++ ".npz" ∧
    smplTypeOf true = "smplx" ∧
    smplTypeOf false = "smpl" ∧
    smcNameOf "/data/session07.smc" = "session07" ∧
    keypoints3dFileName "session07" = "session07_keypoints3d" ++ ".npz" ∧
    smplDataFileName "session07" true = "session07_smplx_data" ++ ".npz" := by
  refine ⟨?_, ?_, ?_, rfl, rfl, by decide, by decide, by decide⟩
  · show (smc ++ "_keypoints2d_") ++ ("view" ++ pad2 i ++ ".npz") =
      smc ++ "_keypoints2d_view" ++ pad2 i ++ ".npz"
    simp only [String.append_assoc]
    rfl
  · show smc ++ "_keypoints3d.npz" = smc ++ "_keypoints3d" ++ ".npz"
    simp only [String.append_assoc]
    rfl
  · show smc ++ "_" ++ smplTypeOf isx ++ "_data.npz" =
      smc ++ "_" ++ smplTypeOf isx ++ "_data" ++ ".npz"
    simp only [String.append_assoc]
    rfl

theorem mem_ite_nil_single {c : Prop} [Decidable c] (x e : Event) :
    x ∈ (if c then [] else [e]) ↔ ¬c ∧ x = e := by
  split <;> simp_all

theorem mem_prefixEvents_iff (a : Args) (ev : Env) (x : Event) :
    x ∈ prefixEvents a ev ↔
      (ev.outputDirExistence = Existence.DirectoryNotExist ∧
        x = Event.mkdirOutputDir) ∨
      (a.disable_log_file = false ∧ x = Event.createLogFile) := by
  unfold prefixEvents
  simp only [List.mem_append, mem_ite_single, mem_ite_nil_single,
    Bool.not_eq_true]

/-- C4: under the persistent (`keep`) strategy, a view whose per-view frame
directory is already non-empty at the start of the run is neither decoded nor
materialized — its existing files are reused; in every other combination
(temporary strategy, persistent strategy over an empty or missing directory,
or the in-memory strategy) the view's frames are always re-materialized
(re-decoded). -/
theorem keep_strategy_idempotence (a : Args) (ev : Env) (v : Nat)
    (h1 : ev.outputDirExistence ≠ Existence.MissingParent)
    (h2 : ev.smcExistence = Existence.FileExist)
    (h3 : ev.numKinects ≠ 0)
    (hf : ∀ s, ev.failAt s = false)
    (hv : v < ev.numKinects) :
    (a.frame_file = FrameFile.keep →
      ev.viewDirExistence v = Existence.DirectoryExistNotEmpty →
      Event.materializeFrames v ∉ (mainRun a ev).1 ∧
      Event.decodeInMemory v ∉ (mainRun a ev).1) ∧
    ((a.frame_file = FrameFile.temp ∨
        (a.frame_file = FrameFile.keep ∧
          ev.viewDirExistence v ≠ Existence.DirectoryExistNotEmpty)) →
      Event.materializeFrames v ∈ (mainRun a ev).1) ∧
    (a.frame_file = FrameFile.none →
      Event.decodeInMemory v ∈ (mainRun a ev).1) := by
  rw [mainRun_nofail a ev h1 h2 h3 hf]
  refine ⟨?_, ?_, ?_⟩
  · intro hkeep hdir
    refine ⟨?_, ?_⟩ <;>
      · intro hmem
        simp only [mem_happyTrace_iff, mem_prefixEvents_iff, mem_eventsOf,
          mem_viewEvents_iff, mem_writerEvents_iff, mem_visEvents_iff,
          List.mem_range] at hmem
        simp [hkeep, hdir] at hmem
  · intro hcase
    have hview : Event.materializeFrames v ∈ viewEvents a ev v := by
      rcases hcase with htemp | ⟨hkeep, hdir⟩
      · simp [viewEvents, htemp]
      · simp [viewEvents, hkeep, hdir]
    exact (mem_happyTrace_iff a ev _).mpr (Or.inr (Or.inl
      ((mem_eventsOf _ _ _).mpr ⟨v, List.mem_range.mpr hv, hview⟩)))
  · intro hnone
    have hview : Event.decodeInMemory v ∈ viewEvents a ev v := by
      simp [viewEvents, hnone]
    exact (mem_happyTrace_iff a ev _).mpr (Or.inr (Or.inl
      ((mem_eventsOf _ _ _).mpr ⟨v, List.mem_range.mpr hv, hview⟩)))

/-- Arguments selecting the persistent on-disk strategy. -/
def argsKeep : Args := { argsBase with frame_file := FrameFile.keep }

/-- Arguments selecting the temporary on-disk strategy. -/
def argsTemp : Args := { argsBase with frame_file := FrameFile.temp }

/-- Environment whose per-view frame directories are all already populated. -/
def envKeepPopulated : Env :=
  { envHappy with viewDirExistence := fun _ => Existence.DirectoryExistNotEmpty }

/-- Witness for `keep_strategy_idempotence` at a concrete populated second
run. -/
theorem keep_strategy_idempotence_witness :
    (argsKeep.frame_file = FrameFile.keep →
      envKeepPopulated.viewDirExistence 1 = Existence.DirectoryExistNotEmpty →
      Event.materializeFrames 1 ∉ (mainRun argsKeep envKeepPopulated).1 ∧
      Event.decodeInMemory 1 ∉ (mainRun argsKeep envKeepPopulated).1) ∧
    ((argsKeep.frame_file = FrameFile.temp ∨
        (argsKeep.frame_file = FrameFile.keep ∧
          envKeepPopulated.viewDirExistence 1 ≠
            Existence.DirectoryExistNotEmpty)) →
      Event.materializeFrames 1 ∈ (mainRun argsKeep envKeepPopulated).1) ∧
    (argsKeep.frame_file = FrameFile.none →
      Event.decodeInMemory 1 ∈ (mainRun argsKeep envKeepPopulated).1) :=
  keep_strategy_idempotence argsKeep envKeepPopulated 1 (by decide) rfl
    (by decide) (fun _ => rfl) (by decide)

/-- C5: under the temporary strategy, the frame-cache directory tree is
removed if and only if the run reaches successful completion of artifact
writing (the body-model dump, the Result Writer's last artifact); removal
never precedes the fused-keypoints artifact. A failure of any stage before
the Result Writer finishes leaves the temporary cache on disk. -/
theorem temp_cache_cleanup (a : Args) (ev : Env)
    (htemp : a.frame_file = FrameFile.temp) :
    (Event.rmTempFrameDir ∈ (mainRun a ev).1 ↔
      Event.dumpSmplData (smplTypeOf ev.isSmplx) ∈ (mainRun a ev).1) ∧
    (Event.rmTempFrameDir ∈ (mainRun a ev).1 →
      Event.dumpKeypoints3d ∈ (mainRun a ev).1) := by
  constructor
  · rw [rm_mem_mainRun_iff a ev htemp, smpl_mem_mainRun_iff a ev]
  · intro h
    exact kp3d_mem_of_completes a ev ((rm_mem_mainRun_iff a ev htemp).mp h)

/-- Witness for `temp_cache_cleanup` at a concrete successful `temp` run. -/
theorem temp_cache_cleanup_witness :
    (Event.rmTempFrameDir ∈ (mainRun argsTemp envHappy).1 ↔
      Event.dumpSmplData (smplTypeOf envHappy.isSmplx) ∈
        (mainRun argsTemp envHappy).1) ∧
    (Event.rmTempFrameDir ∈ (mainRun argsTemp envHappy).1 →
      Event.dumpKeypoints3d ∈ (mainRun argsTemp envHappy).1) :=
  temp_cache_cleanup argsTemp envHappy rfl

/-- The per-view optional Keypoints2D list assembled by the run: one entry per
camera index, absent for views without detections. -/
def kp2dListOf (ev : Env) (kp2dOf : Nat → Kp2dView) : List (Option Kp2dView) :=
  (List.range ev.numKinects).map fun w =>
    if ev.detections w then some (kp2dOf w) else Option.none

/-- C6: a run in which view `k` yields no 2D detections still completes: the
absence is reported by a warning naming the view, no Keypoints2D artifact is
written for it, every view with detections still gets its artifact, the fused
Keypoints3D and body-model artifacts are still produced, and the absent view
contributes no observation to triangulation at any frame/joint. -/
theorem absent_view_tolerated (a : Args) (ev : Env) (kp2dOf : Nat → Kp2dView)
    (k j f' j' : Nat) (p : ℚ × ℚ)
    (h1 : ev.outputDirExistence ≠ Existence.MissingParent)
    (h2 : ev.smcExistence = Existence.FileExist)
    (h3 : ev.numKinects ≠ 0)
    (hf : ∀ s, ev.failAt s = false)
    (hk : k < ev.numKinects)
    (habs : ev.detections k = false)
    (hj : j < ev.numKinects)
    (hdet : ev.detections j = true) :
    (mainRun a ev).2 = Option.none ∧
    Event.warnNoKeypoints2d k ∈ (mainRun a ev).1 ∧
    Event.dumpKeypoints2d k ∉ (mainRun a ev).1 ∧
    Event.dumpKeypoints2d j ∈ (mainRun a ev).1 ∧
    Event.dumpKeypoints3d ∈ (mainRun a ev).1 ∧
    Event.dumpSmplData (smplTypeOf ev.isSmplx) ∈ (mainRun a ev).1 ∧
    (k, p) ∉ contributingObs (kp2dListOf ev kp2dOf) f' j' := by
  rw [mainRun_nofail a ev h1 h2 h3 hf]
  refine ⟨rfl, ?_, ?_, ?_, ?_, ?_, ?_⟩
  · exact (mem_happyTrace_iff a ev _).mpr (Or.inr (Or.inr (Or.inl
      ((mem_eventsOf _ _ _).mpr
        ⟨k, List.mem_range.mpr hk, by simp [writerEvents, habs]⟩))))
  · intro hmem
    simp only [mem_happyTrace_iff, mem_prefixEvents_iff, mem_eventsOf,
      mem_viewEvents_iff, mem_writerEvents_iff, mem_visEvents_iff,
      List.mem_range] at hmem
    simp [habs] at hmem
  · exact (mem_happyTrace_iff a ev _).mpr (Or.inr (Or.inr (Or.inl
      ((mem_eventsOf _ _ _).mpr
        ⟨j, List.mem_range.mpr hj, by simp [writerEvents, hdet]⟩))))
  · exact (mem_happyTrace_iff a ev _).mpr
      (Or.inr (Or.inr (Or.inr (Or.inl rfl))))
  · exact (mem_happyTrace_iff a ev _).mpr
      (Or.inr (Or.inr (Or.inr (Or.inr (Or.inl rfl)))))
  · intro hmem
    rw [mem_contributingObs] at hmem
    have hnone : (kp2dListOf ev kp2dOf).get? k = some Option.none := by
      unfold kp2dListOf
      rw [List.get?_map, List.get?_range hk, Option.map_some']
      simp [habs]
    unfold obsOf at hmem
    rw [hnone] at hmem
    simp at hmem

/-- A concrete single-view Keypoints2D with every joint valid. -/
def kp2dW : Kp2dView where
  kps := fun _ _ => (1, 2)
  mask := fun _ _ => true

/-- Witness for `absent_view_tolerated`: four views, view 2 absent. -/
theorem absent_view_tolerated_witness :
    (mainRun argsBase envHappy).2 = Option.none ∧
    Event.warnNoKeypoints2d 2 ∈ (mainRun argsBase envHappy).1 ∧
    Event.dumpKeypoints2d 2 ∉ (mainRun argsBase envHappy).1 ∧
    Event.dumpKeypoints2d 0 ∈ (mainRun argsBase envHappy).1 ∧
    Event.dumpKeypoints3d ∈ (mainRun argsBase envHappy).1 ∧
    Event.dumpSmplData (smplTypeOf envHappy.isSmplx) ∈
      (mainRun argsBase envHappy).1 ∧
    (2, ((1 : ℚ), (2 : ℚ))) ∉
      contributingObs (kp2dListOf envHappy fun _ => kp2dW) 0 0 :=
  absent_view_tolerated argsBase envHappy (fun _ => kp2dW) 2 0 0 0 (1, 2)
    (by decide) rfl (by decide) (fun _ => rfl) (by decide) (by decide)
    (by decide) (by decide)

/-- C7: for the same logical input, the in-memory path (per-view 2D
estimation, then explicit triangulation and explicit body-model fitting) and
the on-disk path (frame materialization followed by one batch estimator call)
produce identical per-view Keypoints2D, identical Keypoints3D and identical
BodyModelParameters, provided the frame-file round-trip is lossless — the
batching is a pure optimization with no semantic difference. -/
theorem batch_inmemory_equivalence {F G K2 K3 S C : Type}
    (e : MViewEstimator F K2 K3 S C) (bgr : F → F) (store : F → G)
    (load : G → F) (cams : List C) (rawViews : List (List F))
    (hround : ∀ x, load (store x) = x) :
    onDiskPath e bgr store load cams rawViews =
      inMemoryPath e bgr cams rawViews := by
  have h1 : (rawViews.map fun raw => ((raw.map bgr).map store).map load)
      = rawViews.map fun raw => raw.map bgr := by
    apply List.map_congr_left
    intro raw _
    rw [List.map_map, List.map_map]
    apply List.map_congr_left
    intro x _
    simp [Function.comp, hround]
  simp only [onDiskPath, MViewEstimator.run, inMemoryPath]
  rw [h1, List.map_map, foldl_append_singleton, List.nil_append]
  rfl

/-- A concrete estimator over natural-number stand-ins. -/
def estW : MViewEstimator Nat Nat Nat Nat Nat where
  estimate_keypoints2d := fun l => some l.sum
  estimate_keypoints3d := fun cams ks => cams.length + ks.length
  estimate_smpl := fun k => k + 1

/-- Witness for `batch_inmemory_equivalence` at a concrete two-view input. -/
theorem batch_inmemory_equivalence_witness :
    onDiskPath estW (fun x => x + 1) (fun x => x) (fun x => x) [0]
        [[1, 2], [3]] =
      inMemoryPath estW (fun x => x + 1) [0] [[1, 2], [3]] :=
  batch_inmemory_equivalence estW (fun x => x + 1) (fun x => x) (fun x => x)
    [0] [[1, 2], [3]] (fun _ => rfl)

/-- C8: a 3D joint position for a frame is computed only from views that are
present and mark the joint valid there — membership in the contributing
observations is exactly presence plus validity, the output depends only on
those contributing observations — and whenever fewer than two views
contribute, the output mask entry is invalid and no coordinate is produced. -/
theorem triangulator_contract (solve : List (Nat × (ℚ × ℚ)) → ℚ × ℚ × ℚ)
    (views views' : List (Option Kp2dView)) (f j v : Nat) (p : ℚ × ℚ) :
    ((v, p) ∈ contributingObs views f j ↔ obsOf views f j v = some p) ∧
    ((triangulateViews solve views).mask f j =
      decide (2 ≤ (contributingObs views f j).length)) ∧
    ((contributingObs views f j).length < 2 →
      (triangulateViews solve views).mask f j = false ∧
      (triangulateViews solve views).pos f j = Option.none) ∧
    (contributingObs views f j = contributingObs views' f j →
      (triangulateViews solve views).pos f j =
        (triangulateViews solve views').pos f j ∧
      (triangulateViews solve views).mask f j =
        (triangulateViews solve views').mask f j) := by
  refine ⟨mem_contributingObs views f j v p, rfl, ?_, ?_⟩
  · intro hlt
    refine ⟨?_, ?_⟩
    · unfold triangulateViews
      simp only []
      rw [decide_eq_false (by omega)]
    · unfold triangulateViews
      simp only []
      rw [if_neg (by omega)]
  · intro heq
    unfold triangulateViews
    constructor <;> simp only [heq]

/-- Witness for `triangulator_contract` at a concrete two-view input with one
present view (hence fewer than two contributors). -/
theorem triangulator_contract_witness :
    ((0, ((1 : ℚ), (2 : ℚ))) ∈ contributingObs [some kp2dW, Option.none] 0 0 ↔
      obsOf [some kp2dW, Option.none] 0 0 0 = some (1, 2)) ∧
    ((triangulateViews (fun _ => (0, 0, 0)) [some kp2dW, Option.none]).mask 0 0
      = decide (2 ≤ (contributingObs [some kp2dW, Option.none] 0 0).length)) ∧
    ((contributingObs [some kp2dW, Option.none] 0 0).length < 2 →
      (triangulateViews (fun _ => (0, 0, 0)) [some kp2dW, Option.none]).mask 0 0
          = false ∧
      (triangulateViews (fun _ => (0, 0, 0)) [some kp2dW, Option.none]).pos 0 0
          = Option.none) ∧
    (contributingObs [some kp2dW, Option.none] 0 0 =
        contributingObs [some kp2dW, Option.none] 0 0 →
      (triangulateViews (fun _ => (0, 0, 0)) [some kp2dW, Option.none]).pos 0 0
          =
        (triangulateViews (fun _ => (0, 0, 0)) [some kp2dW, Option.none]).pos 0 0 ∧
      (triangulateViews (fun _ => (0, 0, 0)) [some kp2dW, Option.none]).mask 0 0
          =
        (triangulateViews (fun _ => (0, 0, 0)) [some kp2dW, Option.none]).mask 0 0) :=
  triangulator_contract (fun _ => (0, 0, 0)) [some kp2dW, Option.none]
    [some kp2dW, Option.none] 0 0 0 (1, 2)

/-- C9: under either on-disk strategy, the per-view frame path list handed to
the estimator is the glob result sorted lexicographically; all paths share the
view-directory prefix, so the frame order equals the lexical order of the
filenames — the list is the sorted permutation of the filenames, mapped back
under the directory prefix. -/
theorem frame_paths_sorted (viewDir : String) (names : List String) :
    sviewImgList viewDir names =
      (List.insertionSort (fun s t => s ≤ t) names).map
        (fun nm => (viewDir ++ "/") ++ nm) ∧
    List.Sorted (fun s t => s ≤ t) (sviewImgList viewDir names) ∧
    List.Sorted (fun s t => s ≤ t)
      (List.insertionSort (fun s t => s ≤ t) names) ∧
    List.Perm (List.insertionSort (fun s t => s ≤ t) names) names :=
  ⟨insertionSort_map_prepend (viewDir ++ "/") names,
   List.sorted_insertionSort _ _,
   List.sorted_insertionSort _ _,
   List.perm_insertionSort _ _⟩

/-- C10: when visualization is requested, the fused result is re-projected
into all camera views, but a projected-overlay video is written exactly for
the view indices that are multiples of three (0, 3, 6, ...). -/
theorem projection_videos_every_third (a : Args) (ev : Env) (v : Nat)
    (h1 : ev.outputDirExistence ≠ Existence.MissingParent)
    (h2 : ev.smcExistence = Existence.FileExist)
    (h3 : ev.numKinects ≠ 0)
    (hf : ∀ s, ev.failAt s = false)
    (hvis : a.visualize = true) :
    Event.projectAllViews ∈ (mainRun a ev).1 ∧
    (Event.writeProjVideo v ∈ (mainRun a ev).1 ↔
      v % 3 = 0 ∧ v < ev.numKinects) := by
  rw [mainRun_nofail a ev h1 h2 h3 hf]
  constructor
  · exact (mem_happyTrace_iff a ev _).mpr (Or.inr (Or.inr (Or.inr (Or.inr
      (Or.inr (Or.inr ⟨hvis,
        (mem_visEvents_iff ev _).mpr (Or.inr (Or.inl rfl))⟩))))))
  · constructor
    · intro hmem
      simp only [mem_happyTrace_iff, mem_prefixEvents_iff, mem_eventsOf,
        mem_viewEvents_iff, mem_writerEvents_iff, mem_visEvents_iff,
        List.mem_range] at hmem
      simp at hmem
      exact hmem.2
    · intro hv
      exact (mem_happyTrace_iff a ev _).mpr (Or.inr (Or.inr (Or.inr (Or.inr
        (Or.inr (Or.inr ⟨hvis, (mem_visEvents_iff ev _).mpr
          (Or.inr (Or.inr (Or.inl ⟨v, hv.1, hv.2, rfl⟩)))⟩))))))

/-- Arguments with visualization requested. -/
def argsVis : Args := { argsBase with visualize := true }

/-- Witness for `projection_videos_every_third` at view index 3 of 4. -/
theorem projection_videos_every_third_witness :
    Event.projectAllViews ∈ (mainRun argsVis envHappy).1 ∧
    (Event.writeProjVideo 3 ∈ (mainRun argsVis envHappy).1 ↔
      3 % 3 = 0 ∧ 3 < envHappy.numKinects) :=
  projection_videos_every_third argsVis envHappy 3 (by decide) rfl (by decide)
    (fun _ => rfl) rfl
